import Mathlib

/-!
Verification of the reward-tier allocation core of `src/Apps.js`
(the `useCanjes` hook and its helpers).

The JavaScript code computes with IEEE doubles.  We embed JS numbers as
`JsNum`: either NaN, +Infinity, -Infinity, or a finite value carried as an
exact rational.  (Binary rounding of doubles and the sign of zero are not
modelled; all finite arithmetic is exact.  The spec's 0.01 tolerances exist
to absorb float rounding, which this model has none of.)
-/

/-- A JavaScript number: NaN, +Infinity, -Infinity, or a finite value. -/
inductive JsNum where
  | nan : JsNum
  | posInf : JsNum
  | negInf : JsNum
  | num : ℚ → JsNum
deriving DecidableEq, Repr

namespace JsNum

/-- JS unary negation. -/
def neg : JsNum → JsNum
  | nan => nan
  | posInf => negInf
  | negInf => posInf
  | num a => num (-a)

/-- JS `+` on numbers. -/
def add : JsNum → JsNum → JsNum
  | nan, _ => nan
  | _, nan => nan
  | posInf, negInf => nan
  | negInf, posInf => nan
  | posInf, _ => posInf
  | _, posInf => posInf
  | negInf, _ => negInf
  | _, negInf => negInf
  | num a, num b => num (a + b)

/-- JS `-` on numbers. -/
def sub (a b : JsNum) : JsNum := add a (neg b)

/-- JS `*` on numbers. -/
def mul : JsNum → JsNum → JsNum
  | nan, _ => nan
  | _, nan => nan
  | posInf, posInf => posInf
  | posInf, negInf => negInf
  | negInf, posInf => negInf
  | negInf, negInf => posInf
  | posInf, num b => if b = 0 then nan else if 0 < b then posInf else negInf
  | negInf, num b => if b = 0 then nan else if 0 < b then negInf else posInf
  | num a, posInf => if a = 0 then nan else if 0 < a then posInf else negInf
  | num a, negInf => if a = 0 then nan else if 0 < a then negInf else posInf
  | num a, num b => num (a * b)

/-- JS `/` on numbers (sign of zero not modelled: division by 0 uses +0). -/
def div : JsNum → JsNum → JsNum
  | nan, _ => nan
  | _, nan => nan
  | posInf, posInf => nan
  | posInf, negInf => nan
  | negInf, posInf => nan
  | negInf, negInf => nan
  | posInf, num b => if 0 ≤ b then posInf else negInf
  | negInf, num b => if 0 ≤ b then negInf else posInf
  | num _, posInf => num 0
  | num _, negInf => num 0
  | num a, num b =>
      if b = 0 then (if a = 0 then nan else if 0 < a then posInf else negInf)
      else num (a / b)

/-- JS `Math.floor`. -/
def floorJs : JsNum → JsNum
  | nan => nan
  | posInf => posInf
  | negInf => negInf
  | num a => num (⌊a⌋ : ℤ)

/-- JS `Math.round` (rounds half toward +∞). -/
def roundJs : JsNum → JsNum
  | nan => nan
  | posInf => posInf
  | negInf => negInf
  | num a => num (⌊a + 1/2⌋ : ℤ)

/-- JS `<` on numbers (false whenever NaN is involved). -/
def lt : JsNum → JsNum → Bool
  | nan, _ => false
  | _, nan => false
  | posInf, _ => false
  | negInf, negInf => false
  | negInf, _ => true
  | num _, posInf => true
  | num _, negInf => false
  | num a, num b => decide (a < b)

/-- JS `<=` on numbers (false whenever NaN is involved). -/
def le : JsNum → JsNum → Bool
  | nan, _ => false
  | _, nan => false
  | negInf, _ => true
  | posInf, posInf => true
  | posInf, _ => false
  | num _, posInf => true
  | num _, negInf => false
  | num a, num b => decide (a ≤ b)

/-- JS strict equality against the literal `0`. -/
def eqZero : JsNum → Bool
  | num a => decide (a = 0)
  | _ => false

/-- JS `x || 0` on a number: NaN and 0 are falsy and give 0. -/
def or0 : JsNum → JsNum
  | nan => num 0
  | num a => if a = 0 then num 0 else num a
  | x => x

end JsNum

open JsNum

/-- A reward tier as in the `SCALES` constant of `src/Apps.js`. -/
structure Scale where
  id : ℕ
  name : String
  size : ℚ
  weight : ℚ
deriving DecidableEq, Repr

/-- The fixed tier table `SCALES` of `src/Apps.js`. -/
def SCALES : List Scale :=
  [⟨3, "Escala 3", 50, 12⟩,
   ⟨2, "Escala 2", 35, 6⟩,
   ⟨1, "Escala 1", 10, 1⟩]

/-- A per-tier allocation record: `{...s, count}` in the JS code. -/
structure Premio where
  id : ℕ
  name : String
  size : ℚ
  weight : ℚ
  count : JsNum
deriving DecidableEq, Repr

/-- A reconciliation row (`aplicativoRows` entry) of `useCanjes`. -/
structure Row where
  label : String
  repetir : JsNum
  planchasPorRep : JsNum
  montoPorRep : JsNum
deriving DecidableEq, Repr

/-- The `totales` record of the `useCanjes` result. -/
structure Totales where
  planchas : JsNum
  monto : JsNum
  premios : JsNum
deriving DecidableEq, Repr

/-- The full result object returned by `useCanjes`. -/
structure Result where
  unitPrice : JsNum
  premios : List Premio
  aplicativoRows : List Row
  totales : Totales
deriving DecidableEq, Repr

/-- The `round2` helper of `src/Apps.js`: `Math.round((Number(n) || 0) * 100) / 100`. -/
def round2 (n : JsNum) : JsNum :=
  div (roundJs (mul (or0 n) (num 100))) (num 100)

/-- The greedy allocation loop of `useCanjes` (lines 46-54 of `src/Apps.js`):
for each scale in order, `count = Math.floor(remaining / s.size)` and
`remaining -= count * s.size`. -/
def allocLoop : List Scale → JsNum → List Premio × JsNum
  | [], remaining => ([], remaining)
  | s :: rest, remaining =>
      let count := floorJs (div remaining (num s.size))
      let remaining2 := sub remaining (mul count (num s.size))
      let tail := allocLoop rest remaining2
      (⟨s.id, s.name, s.size, s.weight, count⟩ :: tail.1, tail.2)

/-- The allocator: runs the greedy loop over all of `SCALES`. -/
def allocate (planchas : JsNum) : List Premio × JsNum :=
  allocLoop SCALES planchas

/-- `totalPremios`: `premios.reduce((acc, s) => acc + s.count * s.weight, 0)`. -/
def totalPremios (premios : List Premio) : JsNum :=
  premios.foldl (fun acc s => add acc (mul s.count (num s.weight))) (num 0)

/-- The `lastIdx` scan of `useCanjes`: index of the last premio with
`count > 0`, starting from `-1`. -/
def lastIdxLoop : List (ℕ × Premio) → Int → Int
  | [], acc => acc
  | (i, p) :: rest, acc =>
      lastIdxLoop rest (if lt (num 0) p.count then (i : Int) else acc)

/-- Index of the last tier with a positive count (the anchor tier), `-1` if none. -/
def lastIdx (premios : List Premio) : Int :=
  lastIdxLoop premios.enum (-1)

/-- The row-building `forEach` of `useCanjes` (lines 78-90 of `src/Apps.js`):
skip tiers with `count === 0`; the anchor tier with a positive remainder gets
`size + remaining / count` planks per repetition. -/
def buildRows (li : Int) (remaining unitPrice : JsNum) :
    List (ℕ × Premio) → List Row
  | [] => []
  | (idx, p) :: rest =>
      if eqZero p.count then buildRows li remaining unitPrice rest
      else
        let planchasPorRep :=
          if (decide ((idx : Int) = li) && lt (num 0) remaining) then
            add (num p.size) (div remaining p.count)
          else num p.size
        ⟨p.name, p.count, planchasPorRep, mul planchasPorRep unitPrice⟩ ::
          buildRows li remaining unitPrice rest

/-- Plank control total: `rows.reduce((acc, r) => acc + r.planchasPorRep * r.repetir, 0)`. -/
def sumPlanchas (rows : List Row) : JsNum :=
  rows.foldl (fun acc r => add acc (mul r.planchasPorRep r.repetir)) (num 0)

/-- Amount control total: `rows.reduce((acc, r) => acc + r.montoPorRep * r.repetir, 0)`. -/
def sumMonto (rows : List Row) : JsNum :=
  rows.foldl (fun acc r => add acc (mul r.montoPorRep r.repetir)) (num 0)

/-- The sentinel result returned when `planchas <= 0 || monto < 0`. -/
def emptyResult : Result :=
  ⟨num 0, [], [], ⟨num 0, num 0, num 0⟩⟩

/-- The core `useCanjes` computation of `src/Apps.js` (lines 29-114),
translated statement by statement. -/
def useCanjes (planchasInput montoInput : JsNum) : Result :=
  let planchas := or0 planchasInput
  let monto := or0 montoInput
  if (le planchas (num 0) || lt monto (num 0)) then emptyResult
  else
    let unitPrice := div monto planchas
    let alloc := allocate planchas
    let premios := alloc.1
    let remaining := alloc.2
    let tp := totalPremios premios
    let anyCount := premios.any fun p => lt (num 0) p.count
    let rows :=
      if anyCount then buildRows (lastIdx premios) remaining unitPrice premios.enum
      else [⟨"Escala 1", num 1, planchas, mul planchas unitPrice⟩]
    ⟨unitPrice, premios, rows,
      ⟨round2 (sumPlanchas rows), round2 (sumMonto rows), tp⟩⟩

/-! ### Arithmetic lemmas for `JsNum` at finite values -/

namespace JsNum

@[simp] theorem add_num (a b : ℚ) : add (num a) (num b) = num (a + b) := rfl

@[simp] theorem neg_num (a : ℚ) : neg (num a) = num (-a) := rfl

@[simp] theorem sub_num (a b : ℚ) : sub (num a) (num b) = num (a - b) := by
  simp [sub, add, neg, sub_eq_add_neg]

@[simp] theorem mul_num (a b : ℚ) : mul (num a) (num b) = num (a * b) := rfl

@[simp] theorem floorJs_num (a : ℚ) : floorJs (num a) = num (⌊a⌋ : ℤ) := rfl

@[simp] theorem roundJs_num (a : ℚ) : roundJs (num a) = num (⌊a + 1/2⌋ : ℤ) := rfl

theorem div_num (a : ℚ) {b : ℚ} (hb : b ≠ 0) : div (num a) (num b) = num (a / b) := by
  simp [div, hb]

@[simp] theorem lt_num (a b : ℚ) : lt (num a) (num b) = decide (a < b) := rfl

@[simp] theorem le_num (a b : ℚ) : le (num a) (num b) = decide (a ≤ b) := rfl

@[simp] theorem eqZero_num (a : ℚ) : eqZero (num a) = decide (a = 0) := rfl

@[simp] theorem or0_num (a : ℚ) : or0 (num a) = num a := by
  simp only [or0]
  split <;> simp_all

end JsNum

/-! ### Closed form of the allocator on finite inputs

The greedy loop on a finite input `p` produces the floor-division counts
`qc1 p, qc2 p, qc3 p` and running remainders `qr1 p, qr2 p, qr3 p`. -/

/-- Count awarded at the size-50 tier. -/
def qc1 (p : ℚ) : ℚ := (⌊p / 50⌋ : ℤ)

/-- Remainder after the size-50 tier. -/
def qr1 (p : ℚ) : ℚ := p - qc1 p * 50

/-- Count awarded at the size-35 tier. -/
def qc2 (p : ℚ) : ℚ := (⌊qr1 p / 35⌋ : ℤ)

/-- Remainder after the size-35 tier. -/
def qr2 (p : ℚ) : ℚ := qr1 p - qc2 p * 35

/-- Count awarded at the size-10 tier. -/
def qc3 (p : ℚ) : ℚ := (⌊qr2 p / 10⌋ : ℤ)

/-- Final remainder after all three tiers. -/
def qr3 (p : ℚ) : ℚ := qr2 p - qc3 p * 10

theorem allocate_num (p : ℚ) :
    allocate (num p) =
      ([⟨3, "Escala 3", 50, 12, num (qc1 p)⟩,
        ⟨2, "Escala 2", 35, 6, num (qc2 p)⟩,
        ⟨1, "Escala 1", 10, 1, num (qc3 p)⟩], num (qr3 p)) := by
  norm_num [allocate, SCALES, allocLoop, div_num, qc1, qr1, qc2, qr2, qc3, qr3]

/-! ### Floor-division bounds -/

theorem floor_step_nonneg (r s : ℚ) (hs : 0 < s) :
    0 ≤ r - (⌊r / s⌋ : ℤ) * s := by
  have h := Int.floor_le (r / s)
  have := (le_div_iff₀ hs).mp h
  linarith

theorem floor_step_lt (r s : ℚ) (hs : 0 < s) :
    r - (⌊r / s⌋ : ℤ) * s < s := by
  have h := Int.lt_floor_add_one (r / s)
  have := (div_lt_iff₀ hs).mp h
  linarith

theorem floor_div_nonneg {r : ℚ} (s : ℚ) (hs : 0 < s) (hr : 0 ≤ r) :
    (0 : ℚ) ≤ (⌊r / s⌋ : ℤ) := by
  have : (0 : ℤ) ≤ ⌊r / s⌋ := Int.le_floor.mpr (by positivity)
  exact_mod_cast this

theorem qc1_nonneg {p : ℚ} (hp : 0 ≤ p) : 0 ≤ qc1 p :=
  floor_div_nonneg 50 (by norm_num) hp

theorem qr1_nonneg (p : ℚ) : 0 ≤ qr1 p :=
  floor_step_nonneg p 50 (by norm_num)

theorem qc2_nonneg (p : ℚ) : 0 ≤ qc2 p :=
  floor_div_nonneg 35 (by norm_num) (qr1_nonneg p)

theorem qr2_nonneg (p : ℚ) : 0 ≤ qr2 p :=
  floor_step_nonneg (qr1 p) 35 (by norm_num)

theorem qc3_nonneg (p : ℚ) : 0 ≤ qc3 p :=
  floor_div_nonneg 10 (by norm_num) (qr2_nonneg p)

theorem qr3_nonneg (p : ℚ) : 0 ≤ qr3 p :=
  floor_step_nonneg (qr2 p) 10 (by norm_num)

theorem qr3_lt {p : ℚ} : qr3 p < 10 :=
  floor_step_lt (qr2 p) 10 (by norm_num)

/-! ### Unfolding `useCanjes` past the sentinel on finite valid inputs -/

theorem useCanjes_pos (p m : ℚ) (hp : 0 < p) (hm : 0 ≤ m) :
    useCanjes (num p) (num m) =
      (let premios := (allocate (num p)).1
       let rows :=
         if premios.any (fun q => lt (num 0) q.count) then
           buildRows (lastIdx premios) ((allocate (num p)).2) (num (m / p))
             premios.enum
         else [⟨"Escala 1", num 1, num p, num (p * (m / p))⟩]
       ⟨num (m / p), premios, rows,
         ⟨round2 (sumPlanchas rows), round2 (sumMonto rows),
          totalPremios premios⟩⟩) := by
  have hp' : ¬ p ≤ 0 := not_le.mpr hp
  have hm' : ¬ m < 0 := not_lt.mpr hm
  simp [useCanjes, or0_num, le_num, lt_num, hp', hm', div_num _ (ne_of_gt hp)]

/-! ### Claims C2, C3, C4, C5, C7 -/

/-- C2: for every `count > 0`, the reconstruction identity holds exactly after
the greedy loop: the sum over the three tiers of allocation count times tier
size, plus the final remainder, equals the input count. -/
theorem spec_C2_reconstruction (p : ℚ) (hp : 0 < p) :
    add ((allocate (num p)).1.foldl
        (fun acc s => add acc (mul s.count (num s.size))) (num 0))
      ((allocate (num p)).2) = num p := by
  rw [allocate_num]
  simp [List.foldl, qr3, qr2, qr1]

/-- Witness for C2 at `count = 75`. -/
theorem spec_C2_reconstruction_witness :
    (0 : ℚ) < 75 ∧
    add ((allocate (num 75)).1.foldl
        (fun acc s => add acc (mul s.count (num s.size))) (num 0))
      ((allocate (num 75)).2) = num 75 :=
  ⟨by norm_num, spec_C2_reconstruction 75 (by norm_num)⟩

/-- C3: the pipeline at `count = 75, totalAmount = 7500` produces unit price
100, allocation (50-tier: 1, 35-tier: 0, 10-tier: 2) with remainder 5, and
exactly the two reconciliation rows (Escala 3: repetition 1, 50 planks, 5000)
and (Escala 1: repetition 2, 12.5 planks, 1250), with control totals 75 and
7500 and total score 14. -/
theorem spec_C3_anchor_spreading :
    useCanjes (num 75) (num 7500) =
      ⟨num 100,
       [⟨3, "Escala 3", 50, 12, num 1⟩,
        ⟨2, "Escala 2", 35, 6, num 0⟩,
        ⟨1, "Escala 1", 10, 1, num 2⟩],
       [⟨"Escala 3", num 1, num 50, num 5000⟩,
        ⟨"Escala 1", num 2, num (25 / 2), num 1250⟩],
       ⟨num 75, num 7500, num 14⟩⟩ ∧
    (allocate (num 75)).2 = num 5 := by
  have e1 : qc1 (75 : ℚ) = 1 := by norm_num [qc1]
  have e2 : qr1 (75 : ℚ) = 25 := by norm_num [qr1, e1]
  have e3 : qc2 (75 : ℚ) = 0 := by norm_num [qc2, e2]
  have e4 : qr2 (75 : ℚ) = 25 := by norm_num [qr2, e3, e2]
  have e5 : qc3 (75 : ℚ) = 2 := by norm_num [qc3, e4]
  have e6 : qr3 (75 : ℚ) = 5 := by norm_num [qr3, e5, e4]
  constructor
  · rw [useCanjes_pos 75 7500 (by norm_num) (by norm_num), allocate_num]
    norm_num [e1, e2, e3, e4, e5, e6, lastIdx, lastIdxLoop, List.enum,
      buildRows, sumPlanchas, sumMonto, totalPremios, round2, div_num]
  · rw [allocate_num, e6]

/-- C4: tiers are listed in descending size order 50, 35, 10 and the greedy
loop walks them in that order; at `count = 84` it yields counts (1, 0, 3)
with remainder 4, and the size-35 tier gets nothing. -/
theorem spec_C4_descending_greedy :
    SCALES.map (fun s => s.size) = [50, 35, 10] ∧
    (allocate (num 84)).1.map (fun q => (q.name, q.size, q.count)) =
      [("Escala 3", 50, num 1), ("Escala 2", 35, num 0),
       ("Escala 1", 10, num 3)] ∧
    (allocate (num 84)).2 = num 4 := by
  have e1 : qc1 (84 : ℚ) = 1 := by norm_num [qc1]
  have e2 : qr1 (84 : ℚ) = 34 := by norm_num [qr1, e1]
  have e3 : qc2 (84 : ℚ) = 0 := by norm_num [qc2, e2]
  have e4 : qr2 (84 : ℚ) = 34 := by norm_num [qr2, e3, e2]
  have e5 : qc3 (84 : ℚ) = 3 := by norm_num [qc3, e4]
  have e6 : qr3 (84 : ℚ) = 4 := by norm_num [qr3, e5, e4]
  rw [allocate_num]
  norm_num [SCALES, e1, e3, e5, e6]

/-- C5: whenever `count <= 0` or `totalAmount < 0`, the pipeline returns the
empty sentinel: unit price 0, no premios, no rows, all totals 0. -/
theorem spec_C5_sentinel (p m : ℚ) (h : p ≤ 0 ∨ m < 0) :
    useCanjes (num p) (num m) =
      ⟨num 0, [], [], ⟨num 0, num 0, num 0⟩⟩ := by
  rcases h with h | h <;>
    simp [useCanjes, or0_num, le_num, lt_num, h, emptyResult]

/-- Witness for C5 at `count = -5, totalAmount = 100`. -/
theorem spec_C5_sentinel_witness :
    ((-5 : ℚ) ≤ 0 ∨ (100 : ℚ) < 0) ∧
    useCanjes (num (-5)) (num 100) =
      ⟨num 0, [], [], ⟨num 0, num 0, num 0⟩⟩ :=
  ⟨Or.inl (by norm_num), spec_C5_sentinel (-5) 100 (Or.inl (by norm_num))⟩

/-- C7: for every `count >= 0`, the remainder left by the greedy loop is a
finite value `r` with `0 <= r < 10` (10 is the smallest tier size). -/
theorem spec_C7_remainder_bounds (p : ℚ) (hp : 0 ≤ p) :
    ∃ r : ℚ, (allocate (num p)).2 = num r ∧ 0 ≤ r ∧ r < 10 := by
  rw [allocate_num]
  exact ⟨qr3 p, rfl, qr3_nonneg p, qr3_lt⟩

/-- Witness for C7 at `count = 123`. -/
theorem spec_C7_remainder_bounds_witness :
    (0 : ℚ) ≤ 123 ∧
    ∃ r : ℚ, (allocate (num 123)).2 = num r ∧ 0 ≤ r ∧ r < 10 :=
  ⟨by norm_num, spec_C7_remainder_bounds 123 (by norm_num)⟩

/-! ### Claim C8: coercion of non-finite inputs

`Number(x) || 0` coerces NaN (falsy) to 0, but Infinity is truthy and is NOT
coerced, so an infinite `plankCount` escapes the sentinel check and the
pipeline proceeds; and a NaN `totalAmount` with a positive `plankCount` is
treated as amount 0, which is a normal (non-sentinel) run. -/

theorem useCanjes_nan_monto :
    useCanjes (num 75) JsNum.nan = useCanjes (num 75) (num 0) := by
  simp [useCanjes, or0]

/-- C8 fails on the code: a `plankCount` of +Infinity is not coerced to 0 and
escapes the sentinel (three rows are emitted), and a NaN `totalAmount` with
`plankCount = 75` also yields a normal two-row result, not the empty
sentinel. -/
theorem spec_C8_counterexample :
    (useCanjes JsNum.posInf (num 7500)).aplicativoRows.length = 3 ∧
    useCanjes JsNum.posInf (num 7500) ≠ emptyResult ∧
    (useCanjes (num 75) JsNum.nan).aplicativoRows.length = 2 ∧
    useCanjes (num 75) JsNum.nan ≠ emptyResult := by
  have e1 : qc1 (75 : ℚ) = 1 := by norm_num [qc1]
  have e2 : qr1 (75 : ℚ) = 25 := by norm_num [qr1, e1]
  have e3 : qc2 (75 : ℚ) = 0 := by norm_num [qc2, e2]
  have e4 : qr2 (75 : ℚ) = 25 := by norm_num [qr2, e3, e2]
  have e5 : qc3 (75 : ℚ) = 2 := by norm_num [qc3, e4]
  have e6 : qr3 (75 : ℚ) = 5 := by norm_num [qr3, e5, e4]
  have hrows : (useCanjes (num 75) JsNum.nan).aplicativoRows.length = 2 := by
    rw [useCanjes_nan_monto,
      useCanjes_pos 75 0 (by norm_num) (by norm_num), allocate_num]
    norm_num [e1, e2, e3, e4, e5, e6, lastIdx, lastIdxLoop, List.enum,
      buildRows, div_num]
  have hinf : (useCanjes JsNum.posInf (num 7500)).aplicativoRows.length = 3 :=
    rfl
  refine ⟨hinf, fun h => ?_, hrows, fun h => ?_⟩
  · rw [h] at hinf
    simp [emptyResult] at hinf
  · rw [h] at hrows
    simp [emptyResult] at hrows

/-- C8 amended: a NaN input (either argument) is coerced to 0 before the
sentinel checks, so a NaN `plankCount` behaves exactly like `plankCount = 0`
(the empty sentinel) and a NaN `totalAmount` behaves exactly like
`totalAmount = 0` (a normal run when the count is positive); a -Infinity
`plankCount` also hits the sentinel via the `<= 0` check; but a +Infinity
input is truthy, is not coerced, and escapes the sentinel. -/
theorem spec_C8_amended :
    (∀ m, useCanjes JsNum.nan m = useCanjes (num 0) m) ∧
    (∀ q : ℚ, useCanjes (num q) JsNum.nan = useCanjes (num q) (num 0)) ∧
    (∀ m, useCanjes JsNum.nan m = emptyResult) ∧
    (∀ m, useCanjes JsNum.negInf m = emptyResult) ∧
    (useCanjes JsNum.posInf (num 7500)).aplicativoRows.length = 3 := by
  refine ⟨fun m => ?_, fun q => ?_, fun m => ?_, fun m => ?_, rfl⟩
  · simp [useCanjes, or0]
  · simp [useCanjes, or0]
  · simp [useCanjes, or0, le, emptyResult]
  · simp [useCanjes, or0, le, emptyResult]

/-! ### Claim C1: reconciliation round-trip

The control sums over the emitted rows reconstruct the inputs exactly; the
spec's 0.01 tolerance is met with slack 0. -/

/-- The anchor tier's planks-per-repetition: whether or not the positive-
remainder branch fires, the value equals `size + remainder / count`. -/
theorem anchorQty (s c r : ℚ) (hr : 0 ≤ r) (hc : c ≠ 0) :
    (if 0 < r then add (num s) (div (num r) (num c)) else num s)
      = num (s + r / c) := by
  rcases eq_or_lt_of_le hr with h | h
  · simp [← h]
  · simp [h, div_num _ hc]

set_option maxHeartbeats 1000000 in
/-- On every valid input the plank and amount control sums over the
reconciliation rows equal the inputs exactly. -/
theorem sums_eq (p m : ℚ) (hp : 0 < p) (hm : 0 ≤ m) :
    sumPlanchas (useCanjes (num p) (num m)).aplicativoRows = num p ∧
    sumMonto (useCanjes (num p) (num m)).aplicativoRows = num m := by
  have hpne : p ≠ 0 := ne_of_gt hp
  have key : qc1 p * 50 + qc2 p * 35 + qc3 p * 10 + qr3 p = p := by
    simp only [qr3, qr2, qr1]; ring
  have n1 := qc1_nonneg hp.le
  have n2 := qc2_nonneg p
  have n3 := qc3_nonneg p
  have n4 := qr3_nonneg p
  rw [useCanjes_pos p m hp hm, allocate_num]
  set a := qc1 p with ha
  set b := qc2 p with hb
  set c := qc3 p with hc
  set r := qr3 p with hr
  rcases lt_or_eq_of_le n1 with h1 | h1 <;> rcases lt_or_eq_of_le n2 with h2 | h2 <;>
    rcases lt_or_eq_of_le n3 with h3 | h3
  · have hP : a * 50 + b * 35 + c * 10 + r = p := key
    norm_num [lastIdx, lastIdxLoop, List.enum, List.enumFrom, buildRows,
      sumPlanchas, sumMonto, h1, h2, h3, h1.ne', h2.ne', h3.ne',
      anchorQty 10 c r n4 h3.ne']
    constructor
    · field_simp
      linear_combination hP
    · field_simp
      linear_combination (m * p * c) * hP
  · have hP : a * 50 + b * 35 + r = p := by linarith [key]
    norm_num [lastIdx, lastIdxLoop, List.enum, List.enumFrom, buildRows,
      sumPlanchas, sumMonto, h1, h2, ← h3, h1.ne', h2.ne',
      anchorQty 35 b r n4 h2.ne']
    constructor
    · field_simp
      linear_combination hP
    · field_simp
      linear_combination (m * p * b) * hP
  · have hP : a * 50 + c * 10 + r = p := by linarith [key]
    norm_num [lastIdx, lastIdxLoop, List.enum, List.enumFrom, buildRows,
      sumPlanchas, sumMonto, h1, ← h2, h3, h1.ne', h3.ne',
      anchorQty 10 c r n4 h3.ne']
    constructor
    · field_simp
      linear_combination hP
    · field_simp
      linear_combination (m * p * c) * hP
  · have hP : a * 50 + r = p := by linarith [key]
    norm_num [lastIdx, lastIdxLoop, List.enum, List.enumFrom, buildRows,
      sumPlanchas, sumMonto, h1, ← h2, ← h3, h1.ne',
      anchorQty 50 a r n4 h1.ne']
    constructor
    · field_simp
      linear_combination hP
    · field_simp
      linear_combination (m * a) * hP
  · have hP : b * 35 + c * 10 + r = p := by linarith [key]
    norm_num [lastIdx, lastIdxLoop, List.enum, List.enumFrom, buildRows,
      sumPlanchas, sumMonto, ← h1, h2, h3, h2.ne', h3.ne',
      anchorQty 10 c r n4 h3.ne']
    constructor
    · field_simp
      linear_combination hP
    · field_simp
      linear_combination (m * p * c) * hP
  · have hP : b * 35 + r = p := by linarith [key]
    norm_num [lastIdx, lastIdxLoop, List.enum, List.enumFrom, buildRows,
      sumPlanchas, sumMonto, ← h1, h2, ← h3, h2.ne',
      anchorQty 35 b r n4 h2.ne']
    constructor
    · field_simp
      linear_combination hP
    · field_simp
      linear_combination (m * b) * hP
  · have hP : c * 10 + r = p := by linarith [key]
    norm_num [lastIdx, lastIdxLoop, List.enum, List.enumFrom, buildRows,
      sumPlanchas, sumMonto, ← h1, ← h2, h3, h3.ne',
      anchorQty 10 c r n4 h3.ne']
    constructor
    · field_simp
      linear_combination hP
    · field_simp
      linear_combination (m * c) * hP
  · norm_num [lastIdx, lastIdxLoop, List.enum, List.enumFrom, buildRows,
      sumPlanchas, sumMonto, ← h1, ← h2, ← h3]
    field_simp

/-- C1: for every `count > 0` and `totalAmount >= 0` the control sums of the
reconciliation rows are finite values within 0.01 of the original inputs
(indeed they match exactly). -/
theorem spec_C1_round_trip (p m : ℚ) (hp : 0 < p) (hm : 0 ≤ m) :
    ∃ qP qM : ℚ,
      sumPlanchas (useCanjes (num p) (num m)).aplicativoRows = num qP ∧
      sumMonto (useCanjes (num p) (num m)).aplicativoRows = num qM ∧
      |qP - p| ≤ 1 / 100 ∧ |qM - m| ≤ 1 / 100 := by
  obtain ⟨h1, h2⟩ := sums_eq p m hp hm
  exact ⟨p, m, h1, h2, by norm_num, by norm_num⟩

/-- Witness for C1 at `count = 75, totalAmount = 7500`. -/
theorem spec_C1_round_trip_witness :
    (0 : ℚ) < 75 ∧ (0 : ℚ) ≤ 7500 ∧
    ∃ qP qM : ℚ,
      sumPlanchas (useCanjes (num 75) (num 7500)).aplicativoRows = num qP ∧
      sumMonto (useCanjes (num 75) (num 7500)).aplicativoRows = num qM ∧
      |qP - 75| ≤ 1 / 100 ∧ |qM - 7500| ≤ 1 / 100 :=
  ⟨by norm_num, by norm_num,
   spec_C1_round_trip 75 7500 (by norm_num) (by norm_num)⟩

/-! ### Claim C6: degenerate small-count case -/

/-- C6: for every `0 < count < 10` (so every allocation count is 0) the
builder emits exactly one row labelled "Escala 1" with repetition 1,
planks-per-repetition the whole input count, and amount-per-repetition
`count * unitPrice`. -/
theorem spec_C6_degenerate (p m : ℚ) (hp0 : 0 < p) (hp10 : p < 10)
    (hm : 0 ≤ m) :
    (useCanjes (num p) (num m)).aplicativoRows =
      [⟨"Escala 1", num 1, num p, num (p * (m / p))⟩] := by
  have hc1 : qc1 p = 0 := by
    have : ⌊p / 50⌋ = 0 := Int.floor_eq_zero_iff.mpr
      ⟨by positivity, (div_lt_one (by norm_num)).mpr (by linarith)⟩
    simp [qc1, this]
  have hr1 : qr1 p = p := by simp [qr1, hc1]
  have hc2 : qc2 p = 0 := by
    have : ⌊qr1 p / 35⌋ = 0 := Int.floor_eq_zero_iff.mpr
      ⟨by rw [hr1]; positivity,
       (div_lt_one (by norm_num)).mpr (by rw [hr1]; linarith)⟩
    simp [qc2, this]
  have hr2 : qr2 p = p := by simp [qr2, hc2, hr1]
  have hc3 : qc3 p = 0 := by
    have : ⌊qr2 p / 10⌋ = 0 := Int.floor_eq_zero_iff.mpr
      ⟨by rw [hr2]; positivity,
       (div_lt_one (by norm_num)).mpr (by rw [hr2]; linarith)⟩
    simp [qc3, this]
  rw [useCanjes_pos p m hp0 hm, allocate_num]
  norm_num [hc1, hc2, hc3]

/-- Witness for C6 at `count = 7, totalAmount = 700`: one row, label
"Escala 1", repetition 1, planks-per-repetition 7. -/
theorem spec_C6_degenerate_witness :
    (0 : ℚ) < 7 ∧ (7 : ℚ) < 10 ∧ (0 : ℚ) ≤ 700 ∧
    (useCanjes (num 7) (num 700)).aplicativoRows =
      [⟨"Escala 1", num 1, num 7, num (7 * (700 / 7))⟩] :=
  ⟨by norm_num, by norm_num, by norm_num,
   spec_C6_degenerate 7 700 (by norm_num) (by norm_num) (by norm_num)⟩

/-! ### Claims C9, C10: per-row properties of the reconciliation list -/

/-- Every emitted row comes from a premio with `count === 0` false, carries
that premio's name and count, and its planks-per-repetition is either the
tier size or the size plus the spread remainder. -/
theorem buildRows_mem {li : Int} {rem up : JsNum} :
    ∀ (l : List (ℕ × Premio)) (row : Row), row ∈ buildRows li rem up l →
      ∃ pr, pr ∈ l ∧ eqZero pr.2.count = false ∧ row.label = pr.2.name ∧
        row.repetir = pr.2.count ∧
        (row.planchasPorRep = num pr.2.size ∨
          row.planchasPorRep = add (num pr.2.size) (div rem pr.2.count)) := by
  intro l
  induction l with
  | nil => intro row h; simp [buildRows] at h
  | cons hd tl ih =>
      intro row h
      obtain ⟨i, pr⟩ := hd
      simp only [buildRows] at h
      by_cases hz : eqZero pr.count = true
      · rw [if_pos hz] at h
        obtain ⟨q, hq, rest⟩ := ih row h
        exact ⟨q, List.mem_cons_of_mem _ hq, rest⟩
      · rw [if_neg hz] at h
        rcases List.mem_cons.mp h with h | h
        · refine ⟨(i, pr), List.mem_cons_self _ _,
            Bool.not_eq_true _ ▸ (by simpa using hz), ?_, ?_, ?_⟩
          · rw [h]
          · rw [h]
          · by_cases hc :
              (decide ((i : Int) = li) && lt (num 0) rem) = true
            · right; rw [h]; simp [hc]
            · left; rw [h]; simp [hc]
        · obtain ⟨q, hq, rest⟩ := ih row h
          exact ⟨q, List.mem_cons_of_mem _ hq, rest⟩

/-- A count of at least 10 awards at least one tier. -/
theorem counts_pos_of_ten (p : ℚ) (hp : 10 ≤ p) :
    0 < qc1 p ∨ 0 < qc2 p ∨ 0 < qc3 p := by
  rcases lt_or_eq_of_le (qc1_nonneg (by linarith : (0:ℚ) ≤ p)) with h1 | h1
  · exact Or.inl h1
  rcases lt_or_eq_of_le (qc2_nonneg p) with h2 | h2
  · exact Or.inr (Or.inl h2)
  refine Or.inr (Or.inr ?_)
  have hr1 : qr1 p = p := by simp [qr1, ← h1]
  have hr2 : qr2 p = p := by simp [qr2, ← h2, hr1]
  have hfl : (1 : ℤ) ≤ ⌊qr2 p / 10⌋ := by
    refine Int.le_floor.mpr ?_
    rw [hr2]
    rw [show ((1:ℤ):ℚ) = 1 by norm_num, le_div_iff₀ (by norm_num : (0:ℚ) < 10)]
    linarith
  have : (0 : ℤ) < ⌊qr2 p / 10⌋ := lt_of_lt_of_le zero_lt_one hfl
  unfold qc3
  exact_mod_cast this

/-- For `count >= 10` the row list is the loop-built one (not the degenerate
single row). -/
theorem rows_eq_buildRows (p m : ℚ) (hp : 10 ≤ p) (hm : 0 ≤ m) :
    (useCanjes (num p) (num m)).aplicativoRows =
      buildRows
        (lastIdx [⟨3, "Escala 3", 50, 12, num (qc1 p)⟩,
                  ⟨2, "Escala 2", 35, 6, num (qc2 p)⟩,
                  ⟨1, "Escala 1", 10, 1, num (qc3 p)⟩])
        (num (qr3 p)) (num (m / p))
        ([⟨3, "Escala 3", 50, 12, num (qc1 p)⟩,
          ⟨2, "Escala 2", 35, 6, num (qc2 p)⟩,
          ⟨1, "Escala 1", 10, 1, num (qc3 p)⟩].enum) := by
  have hp0 : (0:ℚ) < p := lt_of_lt_of_le (by norm_num) hp
  rw [useCanjes_pos p m hp0 hm, allocate_num]
  rcases counts_pos_of_ten p hp with h | h | h <;>
    simp [List.any_cons, h]

/-- A row whose planks value is the tier size, or the size plus a nonnegative
spread, is at least the tier size. -/
theorem qty_ge (sz x r : ℚ) (hx : 0 ≤ x) (hxne : x ≠ 0) (hr : 0 ≤ r)
    (row : Row)
    (h : row.planchasPorRep = num sz ∨
      row.planchasPorRep = add (num sz) (div (num r) (num x))) :
    ∃ q : ℚ, row.planchasPorRep = num q ∧ sz ≤ q := by
  rcases h with h | h
  · exact ⟨sz, h, le_refl sz⟩
  · have hxp : 0 < x := lt_of_le_of_ne hx (Ne.symm hxne)
    refine ⟨sz + r / x, ?_, ?_⟩
    · rw [h]; simp [div_num _ hxne]
    · linarith [div_nonneg hr hxp.le]

/-- Evaluation of the pipeline at `count = 7, totalAmount = 700`: the
degenerate single row and all-zero premios. -/
theorem eval7 :
    (useCanjes (num 7) (num 700)).aplicativoRows =
      [⟨"Escala 1", num 1, num 7, num (7 * (700 / 7))⟩] ∧
    (useCanjes (num 7) (num 700)).premios =
      [⟨3, "Escala 3", 50, 12, num 0⟩, ⟨2, "Escala 2", 35, 6, num 0⟩,
       ⟨1, "Escala 1", 10, 1, num 0⟩] := by
  have e1 : qc1 (7 : ℚ) = 0 := by norm_num [qc1]
  have e2 : qr1 (7 : ℚ) = 7 := by norm_num [qr1, e1]
  have e3 : qc2 (7 : ℚ) = 0 := by norm_num [qc2, e2]
  have e4 : qr2 (7 : ℚ) = 7 := by norm_num [qr2, e3, e2]
  have e5 : qc3 (7 : ℚ) = 0 := by norm_num [qc3, e4]
  rw [useCanjes_pos 7 700 (by norm_num) (by norm_num), allocate_num]
  norm_num [e1, e3, e5]

/-- The reported premios list on any valid input. -/
theorem prem_eval (p m : ℚ) (hp : 0 < p) (hm : 0 ≤ m) :
    (useCanjes (num p) (num m)).premios =
      [⟨3, "Escala 3", 50, 12, num (qc1 p)⟩,
       ⟨2, "Escala 2", 35, 6, num (qc2 p)⟩,
       ⟨1, "Escala 1", 10, 1, num (qc3 p)⟩] := by
  rw [useCanjes_pos p m hp hm, allocate_num]

/-- C9 fails on the code: at the valid input `count = 7, totalAmount = 700`
the single emitted row is labelled after the size-10 tier but carries
planks-per-repetition 7 < 10. -/
theorem spec_C9_counterexample :
    (0 : ℚ) < 7 ∧ (0 : ℚ) ≤ 700 ∧
    ∃ row ∈ (useCanjes (num 7) (num 700)).aplicativoRows,
      ∃ s ∈ SCALES, row.label = s.name ∧ row.planchasPorRep = num 7 ∧
        s.size = 10 ∧ ¬ (10 : ℚ) ≤ 7 := by
  refine ⟨by norm_num, by norm_num,
    ⟨"Escala 1", num 1, num 7, num (7 * (700 / 7))⟩, ?_,
    ⟨1, "Escala 1", 10, 1⟩, ?_, rfl, rfl, rfl, by norm_num⟩
  · rw [eval7.1]; simp
  · simp [SCALES]

/-- C9 amended: on valid inputs with `count >= 10` (equivalently, whenever
some tier is awarded and the loop-built rows are emitted), every row's
planks-per-repetition is a finite value at least the size of the tier the
row is labelled after; for `0 < count < 10` the degenerate row instead
carries the whole count, which is below the smallest tier size. -/
theorem spec_C9_amended (p m : ℚ) (hp : 10 ≤ p) (hm : 0 ≤ m) :
    ∀ row ∈ (useCanjes (num p) (num m)).aplicativoRows,
      ∀ s ∈ SCALES, row.label = s.name →
        ∃ q : ℚ, row.planchasPorRep = num q ∧ s.size ≤ q := by
  have hp0 : (0:ℚ) ≤ p := by linarith
  intro row hrow s hs hlabel
  rw [rows_eq_buildRows p m hp hm] at hrow
  obtain ⟨pr, hpr, hz, hlab, hrep, hqty⟩ := buildRows_mem _ row hrow
  rw [hlab] at hlabel
  simp only [List.enum, List.enumFrom, List.mem_cons, List.not_mem_nil,
    or_false] at hpr
  simp only [SCALES, List.mem_cons, List.not_mem_nil, or_false] at hs
  rcases hpr with h | h | h <;> subst h <;>
    rcases hs with h | h | h <;> subst h <;>
    simp only [] at hlabel hz hqty ⊢ <;>
    first
    | simp at hlabel
    | (first
       | exact qty_ge 50 (qc1 p) (qr3 p) (qc1_nonneg hp0)
           (by simpa using hz) (qr3_nonneg p) row hqty
       | exact qty_ge 35 (qc2 p) (qr3 p) (qc2_nonneg p)
           (by simpa using hz) (qr3_nonneg p) row hqty
       | exact qty_ge 10 (qc3 p) (qr3 p) (qc3_nonneg p)
           (by simpa using hz) (qr3_nonneg p) row hqty)

/-- Witness for the amended C9 at `count = 75, totalAmount = 7500`. -/
theorem spec_C9_amended_witness :
    (10 : ℚ) ≤ 75 ∧ (0 : ℚ) ≤ 7500 ∧
    ∀ row ∈ (useCanjes (num 75) (num 7500)).aplicativoRows,
      ∀ s ∈ SCALES, row.label = s.name →
        ∃ q : ℚ, row.planchasPorRep = num q ∧ s.size ≤ q :=
  ⟨by norm_num, by norm_num,
   spec_C9_amended 75 7500 (by norm_num) (by norm_num)⟩

/-- C10 fails on the code in the degenerate case: at `count = 7` the size-10
tier has allocation count 0, yet the single emitted row is labelled after
it. -/
theorem spec_C10_counterexample :
    (0 : ℚ) < 7 ∧ (0 : ℚ) ≤ 700 ∧
    ∃ s ∈ (useCanjes (num 7) (num 700)).premios, eqZero s.count = true ∧
      ∃ row ∈ (useCanjes (num 7) (num 700)).aplicativoRows,
        row.label = s.name := by
  refine ⟨by norm_num, by norm_num,
    ⟨1, "Escala 1", 10, 1, num 0⟩, ?_, by simp [eqZero],
    ⟨"Escala 1", num 1, num 7, num (7 * (700 / 7))⟩, ?_, rfl⟩
  · rw [eval7.2]; simp
  · rw [eval7.1]; simp

/-- C10 amended: on every valid input the reported premios list has exactly
one entry per tier in descending size order (zeros included) and the
reported score is the count-weight sum; and whenever `count >= 10` (some
tier awarded) no emitted row is labelled after a zero-count tier — for
`0 < count < 10` the degenerate row is labelled after the zero-count
smallest tier. -/
theorem spec_C10_amended (p m : ℚ) (hp : 0 < p) (hm : 0 ≤ m) :
    (useCanjes (num p) (num m)).premios.map (fun q => (q.name, q.size)) =
      [("Escala 3", 50), ("Escala 2", 35), ("Escala 1", 10)] ∧
    (useCanjes (num p) (num m)).totales.premios =
      totalPremios (useCanjes (num p) (num m)).premios ∧
    (10 ≤ p →
      ∀ s ∈ (useCanjes (num p) (num m)).premios, eqZero s.count = true →
        ∀ row ∈ (useCanjes (num p) (num m)).aplicativoRows,
          row.label ≠ s.name) := by
  refine ⟨by rw [prem_eval p m hp hm]; simp, ?_, ?_⟩
  · rw [prem_eval p m hp hm]
    rw [useCanjes_pos p m hp hm, allocate_num]
  · intro h10 s hs hz row hrow hlabel
    rw [rows_eq_buildRows p m h10 hm] at hrow
    obtain ⟨pr, hpr, hzf, hlab, _, _⟩ := buildRows_mem _ row hrow
    rw [hlab] at hlabel
    rw [prem_eval p m hp hm] at hs
    simp only [List.enum, List.enumFrom, List.mem_cons, List.not_mem_nil,
      or_false] at hpr
    simp only [List.mem_cons, List.not_mem_nil, or_false] at hs
    rcases hpr with h | h | h <;> subst h <;>
      rcases hs with h | h | h <;> subst h <;>
      first
      | (simp only [eqZero_num, decide_eq_true_eq,
           decide_eq_false_iff_not] at hz hzf;
         exact absurd hz hzf)
      | simp at hlabel

/-- Witness for the amended C10 at `count = 75, totalAmount = 7500`. -/
theorem spec_C10_amended_witness :
    (0 : ℚ) < 75 ∧ (0 : ℚ) ≤ 7500 ∧
    ((useCanjes (num 75) (num 7500)).premios.map (fun q => (q.name, q.size)) =
      [("Escala 3", 50), ("Escala 2", 35), ("Escala 1", 10)] ∧
    (useCanjes (num 75) (num 7500)).totales.premios =
      totalPremios (useCanjes (num 75) (num 7500)).premios ∧
    (10 ≤ (75:ℚ) →
      ∀ s ∈ (useCanjes (num 75) (num 7500)).premios, eqZero s.count = true →
        ∀ row ∈ (useCanjes (num 75) (num 7500)).aplicativoRows,
          row.label ≠ s.name)) :=
  ⟨by norm_num, by norm_num,
   spec_C10_amended 75 7500 (by norm_num) (by norm_num)⟩
